import Mathlib

/-!
Verification of the SAVIOUR serial communication protocol
(`src/modules/examples/apa_arduino/arduino/comms/comms.h`).

The header declares the class `Comms` with the enumerations `MSG_TYPES`
and `CMD_TYPES` and the operations `sendMessage` / `parseCommand`, but no
bodies.  The framing codec, dispatcher and protocol engine are therefore
modelled from the specification document (its section 4.1 wire format),
as noted on each definition below.  Bytes are modelled as `Nat` with the
range constraint `< 256` stated explicitly where it matters.
-/

namespace Comms

/-- The `MSG_TYPES` enumeration from `comms.h`:
`enum MSG_TYPES { ACK, NACK, SUCCESS, ERROR, IDENTITY, DATA };`. -/
inductive MSG_TYPES
  | ACK
  | NACK
  | SUCCESS
  | ERROR
  | IDENTITY
  | DATA
deriving DecidableEq, Repr

/-- The `CMD_TYPES` enumeration from `comms.h`:
`enum CMD_TYPES { GET_IDENTITY, GET_DATA };`. -/
inductive CMD_TYPES
  | GET_IDENTITY
  | GET_DATA
deriving DecidableEq, Repr

/-- Wire value of a `MSG_TYPES` enumerator under C++ default numbering
(first enumerator 0, each next one more). -/
def msgVal : MSG_TYPES → Nat
  | .ACK => 0
  | .NACK => 1
  | .SUCCESS => 2
  | .ERROR => 3
  | .IDENTITY => 4
  | .DATA => 5

/-- Wire value of a `CMD_TYPES` enumerator under C++ default numbering. -/
def cmdVal : CMD_TYPES → Nat
  | .GET_IDENTITY => 0
  | .GET_DATA => 1

/-- Recover a `MSG_TYPES` enumerator from its wire value. -/
def msgOfVal : Nat → Option MSG_TYPES
  | 0 => some .ACK
  | 1 => some .NACK
  | 2 => some .SUCCESS
  | 3 => some .ERROR
  | 4 => some .IDENTITY
  | 5 => some .DATA
  | _ => none

/-- Recover a `CMD_TYPES` enumerator from its wire value. -/
def cmdOfVal : Nat → Option CMD_TYPES
  | 0 => some .GET_IDENTITY
  | 1 => some .GET_DATA
  | _ => none

/-- A KIND byte is a legal message kind iff it is a `MSG_TYPES` wire value. -/
def msgKindValid (b : Nat) : Bool := b < 6

/-- A KIND byte is a legal command kind iff it is a `CMD_TYPES` wire value. -/
def cmdKindValid (b : Nat) : Bool := b < 2

/-- A Message: a `MSG_TYPES` kind plus a payload (sequence of bytes). -/
structure Message where
  kind : MSG_TYPES
  payload : List Nat
deriving DecidableEq, Repr

/-- A Command: a `CMD_TYPES` kind plus optional argument bytes. -/
structure Command where
  kind : CMD_TYPES
  args : List Nat
deriving DecidableEq, Repr

/-- Modelled from the spec: `START_BYTE` is a reserved sentinel value
(the spec fixes no concrete value; any byte distinct from `END_BYTE` works). -/
def START_BYTE : Nat := 126

/-- Modelled from the spec: `END_BYTE` is a reserved sentinel value. -/
def END_BYTE : Nat := 125

/-- Modelled from the spec: the escape-byte scheme "doubles any payload
byte equal to a sentinel". -/
def escape (p : List Nat) : List Nat :=
  p.flatMap fun b => if b = START_BYTE ∨ b = END_BYTE then [b, b] else [b]

/-- Inverse of `escape`: collapse a doubled sentinel byte back to one. -/
def unescape : List Nat → List Nat
  | [] => []
  | [b] => [b]
  | b :: b2 :: rest =>
    if b = START_BYTE ∨ b = END_BYTE then b :: unescape rest
    else b :: unescape (b2 :: rest)

/-- XOR-fold of a list of bytes. -/
def xorFold (l : List Nat) : Nat := l.foldr (fun a b => a ^^^ b) 0

/-- Modelled from the spec: CHECKSUM is "the … XOR checksum of KIND,
LENGTH, and PAYLOAD bytes" (the PAYLOAD bytes as they stand on the wire). -/
def checksum (kind len : Nat) (wire : List Nat) : Nat :=
  kind ^^^ len ^^^ xorFold wire

/-- Modelled from the spec: the body of `Comms::sendMessage` is absent, so
the frame builder follows the spec's layout
`START_BYTE | KIND | LENGTH | PAYLOAD | CHECKSUM | END_BYTE`, where
PAYLOAD is the escaped payload and LENGTH counts the PAYLOAD bytes on
the wire. -/
def encodeFrame (kind : Nat) (payload : List Nat) : List Nat :=
  let ep := escape payload
  START_BYTE :: kind :: ep.length :: (ep ++ [checksum kind ep.length ep, END_BYTE])

/-- Modelled from the spec: `encode(Message) -> ByteSequence`. -/
def encode (m : Message) : List Nat := encodeFrame (msgVal m.kind) m.payload

/-- Modelled from the spec: encoding of a Command frame (same layout,
KIND drawn from `CMD_TYPES`). -/
def encodeCmd (c : Command) : List Nat := encodeFrame (cmdVal c.kind) c.args

/-- Outcome of one decode call: a recovered frame (KIND wire value plus
unescaped payload), a request for more input, or a malformed frame. -/
inductive DecodeResult
  | msg (kind : Nat) (payload : List Nat)
  | needMoreData
  | malformed
deriving DecidableEq, Repr

/-- Modelled from the spec: the body of `Comms::parseCommand` is absent, so
the decoder follows the spec's section 4.1: scan forward for `START_BYTE`
(discarding garbage), read KIND and LENGTH, wait for more input while
fewer than LENGTH + 2 bytes follow, then accept the frame iff the end
sentinel is in place, the checksum matches, and `vk` accepts KIND;
otherwise the partial frame is discarded and the decoder resynchronizes
by scanning forward for the next `START_BYTE` (only the failed start byte
is consumed, so no later frame start can be missed).  The second
component is the bytes left in the buffer. -/
def decode (vk : Nat → Bool) (buf : List Nat) : DecodeResult × List Nat :=
  match buf.dropWhile (fun b => b ≠ START_BYTE) with
  | [] => (.needMoreData, [])
  | [s] => (.needMoreData, [s])
  | [s, kind] => (.needMoreData, [s, kind])
  | s :: kind :: len :: rest3 =>
    if rest3.length < len + 2 then (.needMoreData, s :: kind :: len :: rest3)
    else
      match rest3.drop len with
      | chk :: endB :: remaining =>
        if endB = END_BYTE ∧ chk = checksum kind len (rest3.take len) ∧ vk kind then
          (.msg kind (unescape (rest3.take len)), remaining)
        else (.malformed, kind :: len :: rest3)
      | _ => (.needMoreData, s :: kind :: len :: rest3)

/-- Drive `decode` over a whole buffer, collecting every recovered frame
until the decoder asks for more input.  (The length guards discharge
termination; `decode` always shrinks the buffer when it makes progress.) -/
def decodeAll (vk : Nat → Bool) (buf : List Nat) : List (Nat × List Nat) :=
  match h : decode vk buf with
  | (.msg k p, rest) =>
    if hlt : rest.length < buf.length then (k, p) :: decodeAll vk rest else [(k, p)]
  | (.malformed, rest) =>
    if hlt : rest.length < buf.length then decodeAll vk rest else []
  | (.needMoreData, _) => []
termination_by buf.length

/-- Modelled from the spec: the Command Dispatcher. `GET_IDENTITY` yields
an `IDENTITY` message carrying the configured identity string;
`GET_DATA` yields `DATA` with the application collaborator's payload on
success and `ERROR` with the failure reason code on failure. -/
def dispatch (identity : List Nat) (app : Except Nat (List Nat)) :
    CMD_TYPES → Message
  | .GET_IDENTITY => ⟨.IDENTITY, identity⟩
  | .GET_DATA =>
    match app with
    | .ok d => ⟨.DATA, d⟩
    | .error r => ⟨.ERROR, [r]⟩

/-- The `NACK` reply sent for a malformed frame. -/
def nackMessage : Message := ⟨.NACK, []⟩

/-- Modelled from the spec: one receive step of the Protocol Engine.  On a
successfully decoded Command it invokes the Dispatcher and replies with
the resulting Message; on `Malformed` it replies `NACK`; on
`NeedMoreData` it takes no action.  The first component is the (at most
one) reply, the second the bytes left in the buffer. -/
def engineStep (identity : List Nat) (app : Except Nat (List Nat))
    (buf : List Nat) : Option Message × List Nat :=
  match decode cmdKindValid buf with
  | (.msg k _, rest) =>
    match cmdOfVal k with
    | some c => (some (dispatch identity app c), rest)
    | none => (some nackMessage, rest)
  | (.malformed, rest) => (some nackMessage, rest)
  | (.needMoreData, rest) => (none, rest)

/-- Interpret a decoded frame as a typed Message (used on the receiving
side of the message direction). -/
def decodeMsg (buf : List Nat) : Option Message :=
  match decode msgKindValid buf with
  | (.msg k p, _) => (msgOfVal k).map fun kd => ⟨kd, p⟩
  | _ => none

/-- A payload is byte-valid when each element is a byte and its escaped
form fits the 1-byte LENGTH field. -/
def validPayload (p : List Nat) : Prop :=
  (∀ b ∈ p, b < 256) ∧ (escape p).length ≤ 255

/-- A valid Message: byte-valid payload. -/
def validMsg (m : Message) : Prop := validPayload m.payload

/-- A valid Command: byte-valid argument bytes. -/
def validCmd (c : Command) : Prop := validPayload c.args

instance (p : List Nat) : Decidable (validPayload p) := by
  unfold validPayload; infer_instance

instance (m : Message) : Decidable (validMsg m) := by
  unfold validMsg; infer_instance

instance (c : Command) : Decidable (validCmd c) := by
  unfold validCmd; infer_instance

/-! ### Helper lemmas about the codec -/

lemma escape_cons_pos {b : Nat} (t : List Nat) (hb : b = START_BYTE ∨ b = END_BYTE) :
    escape (b :: t) = b :: b :: escape t := by
  simp only [escape, List.flatMap_cons, if_pos hb, List.cons_append, List.nil_append]

lemma escape_cons_neg {b : Nat} (t : List Nat) (hb : ¬(b = START_BYTE ∨ b = END_BYTE)) :
    escape (b :: t) = b :: escape t := by
  simp only [escape, List.flatMap_cons, if_neg hb, List.cons_append, List.nil_append]

lemma escape_ne_nil {p : List Nat} (h : p ≠ []) : escape p ≠ [] := by
  cases p with
  | nil => exact absurd rfl h
  | cons b t =>
    by_cases hb : b = START_BYTE ∨ b = END_BYTE
    · rw [escape_cons_pos t hb]; simp
    · rw [escape_cons_neg t hb]; simp

lemma unescape_cons_neg {b : Nat} (l : List Nat) (hb : ¬(b = START_BYTE ∨ b = END_BYTE)) :
    unescape (b :: l) = b :: unescape l := by
  cases l with
  | nil => rfl
  | cons c u => simp only [unescape, if_neg hb]

lemma unescape_cons_cons_pos {b : Nat} (l : List Nat) (hb : b = START_BYTE ∨ b = END_BYTE) :
    unescape (b :: b :: l) = b :: unescape l := by
  simp only [unescape, if_pos hb]

lemma unescape_escape (p : List Nat) : unescape (escape p) = p := by
  induction p with
  | nil => rfl
  | cons b t ih =>
    by_cases hb : b = START_BYTE ∨ b = END_BYTE
    · rw [escape_cons_pos t hb, unescape_cons_cons_pos _ hb, ih]
    · rw [escape_cons_neg t hb]
      rcases ht : escape t with _ | ⟨c, u⟩
      · have h0 : t = [] := by
          cases t with
          | nil => rfl
          | cons x y => exact absurd ht (escape_ne_nil (by simp))
        subst h0
        rfl
      · have step : unescape (b :: escape t) = b :: unescape (escape t) := by
          rw [ht]; exact unescape_cons_neg _ hb
        rw [← ht, step, ih]

lemma encodeFrame_length (k : Nat) (p : List Nat) :
    (encodeFrame k p).length = (escape p).length + 5 := by
  simp only [encodeFrame, List.length_cons, List.length_append]
  simp

/-- Unfolding of `decode` on a buffer already aligned at a start byte. -/
lemma decode_start (vk : Nat → Bool) (kind len : Nat) (rest3 : List Nat) :
    decode vk (START_BYTE :: kind :: len :: rest3) =
      if rest3.length < len + 2 then
        (.needMoreData, START_BYTE :: kind :: len :: rest3)
      else
        match rest3.drop len with
        | chk :: endB :: remaining =>
          if endB = END_BYTE ∧ chk = checksum kind len (rest3.take len) ∧ vk kind then
            (.msg kind (unescape (rest3.take len)), remaining)
          else (.malformed, kind :: len :: rest3)
        | _ => (.needMoreData, START_BYTE :: kind :: len :: rest3) := by
  unfold decode
  rw [List.dropWhile_cons_of_neg (by simp)]

/-- A buffer aligned at a start byte whose tail is too short for the
announced frame makes the decoder wait. -/
lemma decode_start_short (vk : Nat → Bool) (kind len : Nat) (t : List Nat)
    (h : t.length < len + 2) :
    decode vk (START_BYTE :: kind :: len :: t) =
      (.needMoreData, START_BYTE :: kind :: len :: t) := by
  rw [decode_start, if_pos h]

/-- A canonical frame followed by anything decodes to its message, leaving
exactly the trailer in the buffer. -/
lemma decode_encodeFrame (vk : Nat → Bool) (k : Nat) (p s : List Nat)
    (hk : vk k = true) :
    decode vk (encodeFrame k p ++ s) = (.msg k p, s) := by
  simp only [encodeFrame, List.cons_append, List.append_assoc, List.nil_append]
  rw [decode_start]
  rw [if_neg (by simp)]
  rw [show (escape p ++ checksum k (escape p).length (escape p) :: END_BYTE :: s).drop
        (escape p).length = checksum k (escape p).length (escape p) :: END_BYTE :: s from
    List.drop_left (escape p) _]
  rw [show (escape p ++ checksum k (escape p).length (escape p) :: END_BYTE :: s).take
        (escape p).length = escape p from List.take_left (escape p) _]
  simp [hk, unescape_escape]

/-- Bytes before the next start byte are garbage: the decoder skips them. -/
lemma decode_drop_garbage (vk : Nat → Bool) (g l : List Nat) :
    (∀ b ∈ g, b ≠ START_BYTE) → decode vk (g ++ l) = decode vk l := by
  induction g with
  | nil => intro _; rw [List.nil_append]
  | cons b t ih =>
    intro hg
    have hb : b ≠ START_BYTE := hg b (by simp)
    have step : decode vk ((b :: t) ++ l) = decode vk (t ++ l) := by
      unfold decode
      rw [List.cons_append, List.dropWhile_cons_of_pos (by simp [hb])]
    rw [step, ih fun x hx => hg x (List.mem_cons_of_mem _ hx)]

lemma decodeAll_msg (vk : Nat → Bool) (buf : List Nat) (k : Nat) (p rest : List Nat)
    (h : decode vk buf = (.msg k p, rest)) (hlt : rest.length < buf.length) :
    decodeAll vk buf = (k, p) :: decodeAll vk rest := by
  conv_lhs => rw [decodeAll.eq_def]
  rw [h]
  simp only [dif_pos hlt]

lemma decodeAll_needMore (vk : Nat → Bool) (buf rest : List Nat)
    (h : decode vk buf = (.needMoreData, rest)) : decodeAll vk buf = [] := by
  conv_lhs => rw [decodeAll.eq_def]
  rw [h]

lemma decodeAll_nil (vk : Nat → Bool) : decodeAll vk [] = [] :=
  decodeAll_needMore vk [] [] rfl

lemma xorFold_set (l : List Nat) (j c : Nat) (h : j < l.length) :
    xorFold (l.set j (l.getD j 0 ^^^ c)) = xorFold l ^^^ c := by
  induction l generalizing j with
  | nil => simp at h
  | cons b t ih =>
    cases j with
    | zero =>
      simp only [List.set_cons_zero, List.getD_cons_zero, xorFold, List.foldr_cons]
      rw [Nat.xor_assoc, Nat.xor_comm c, ← Nat.xor_assoc]
    | succ j =>
      simp only [List.set_cons_succ, List.getD_cons_succ, xorFold, List.foldr_cons]
      have ht : j < t.length := by simpa using h
      have := ih j ht
      simp only [xorFold] at this
      rw [this, ← Nat.xor_assoc]

lemma self_ne_xor (a c : Nat) (hc : 0 < c) : a ≠ a ^^^ c := by
  intro h
  have h2 : a ^^^ a = a ^^^ (a ^^^ c) := congrArg (a ^^^ ·) h
  rw [Nat.xor_self, ← Nat.xor_assoc, Nat.xor_self, Nat.zero_xor] at h2
  omega

lemma msgKindValid_msgVal (k : MSG_TYPES) : msgKindValid (msgVal k) = true := by
  cases k <;> rfl

lemma cmdKindValid_cmdVal (c : CMD_TYPES) : cmdKindValid (cmdVal c) = true := by
  cases c <;> rfl

lemma msgOfVal_msgVal (k : MSG_TYPES) : msgOfVal (msgVal k) = some k := by
  cases k <;> rfl

lemma cmdOfVal_cmdVal (c : CMD_TYPES) : cmdOfVal (cmdVal c) = some c := by
  cases c <;> rfl

lemma msgVal_injective (a b : MSG_TYPES) (h : msgVal a = msgVal b) : a = b := by
  cases a <;> cases b <;> first | rfl | simp [msgVal] at h

/-- A frame whose checksum byte does not match the checksum of its fields
is rejected as malformed (only the start byte is consumed). -/
lemma decode_bad_checksum (vk : Nat → Bool) (k n : Nat) (wire : List Nat)
    (chk : Nat) (hL : wire.length = n) (hne : chk ≠ checksum k n wire) :
    decode vk (START_BYTE :: k :: n :: (wire ++ [chk, END_BYTE])) =
      (.malformed, k :: n :: (wire ++ [chk, END_BYTE])) := by
  rw [decode_start]
  rw [if_neg (by simp [hL])]
  rw [List.drop_left' hL, List.take_left' hL]
  simp only []
  rw [if_neg (by intro h; exact hne h.2.1)]

lemma set_cons3 (a b c : Nat) (t : List Nat) (j v : Nat) :
    (a :: b :: c :: t).set (j + 3) v = a :: b :: c :: t.set j v := rfl

lemma getD_cons3 (a b c : Nat) (t : List Nat) (j : Nat) :
    (a :: b :: c :: t).getD (j + 3) 0 = t.getD j 0 := rfl

/-! ### The claims -/

/-- C10: with C++ default numbering, `MSG_TYPES` has exactly the wire
values ACK=0, NACK=1, SUCCESS=2, ERROR=3, IDENTITY=4, DATA=5 and
`CMD_TYPES` exactly GET_IDENTITY=0, GET_DATA=1; GET_IDENTITY collides
with ACK and GET_DATA with NACK, so a 1-byte KIND value alone cannot
distinguish a Command frame from a Message frame (every command wire
value is also a message wire value), and any KIND byte greater than 5
lies outside both enumerations. -/
theorem enum_wire_values_overlap :
    (msgVal .ACK = 0 ∧ msgVal .NACK = 1 ∧ msgVal .SUCCESS = 2 ∧
     msgVal .ERROR = 3 ∧ msgVal .IDENTITY = 4 ∧ msgVal .DATA = 5) ∧
    (cmdVal .GET_IDENTITY = 0 ∧ cmdVal .GET_DATA = 1) ∧
    cmdVal .GET_IDENTITY = msgVal .ACK ∧
    cmdVal .GET_DATA = msgVal .NACK ∧
    (∀ c : CMD_TYPES, ∃ x : MSG_TYPES, msgVal x = cmdVal c) ∧
    (∀ b : Nat, 5 < b → (∀ x : MSG_TYPES, msgVal x ≠ b) ∧
      ∀ c : CMD_TYPES, cmdVal c ≠ b) := by
  refine ⟨by decide, by decide, by decide, by decide, ?_, ?_⟩
  · intro c
    cases c with
    | GET_IDENTITY => exact ⟨.ACK, rfl⟩
    | GET_DATA => exact ⟨.NACK, rfl⟩
  intro b hb
  constructor
  · intro x
    cases x <;> simp only [msgVal] <;> omega
  · intro c
    cases c <;> simp only [cmdVal] <;> omega

/-- C8 counterexample: the spec's arithmetic "output length =
4 + escaped-payload-length" contradicts its own frame layout; already the
empty-payload `ACK` message encodes to 5 bytes, not 4. -/
theorem encode_length_not_four_plus :
    ¬ ((encode ⟨.ACK, []⟩).length = 4 + (escape ([] : List Nat)).length) := by
  decide

/-- C8 (amended): `encode` always succeeds (it is a total function), is
deterministic, and its output length is exactly 5 + escaped-payload-length
(START_BYTE, KIND, LENGTH, CHECKSUM and END_BYTE are five bytes of
overhead around the escaped payload). -/
theorem encode_total_deterministic_length (m : Message) :
    (encode m).length = 5 + (escape m.payload).length ∧
    ∀ m' : Message, m = m' → encode m = encode m' := by
  constructor
  · unfold encode
    rw [encodeFrame_length]
    omega
  · intro m' h
    rw [h]

/-- C9: a decode call is a total function returning one of exactly three
outcomes (a message, `needMoreData` or `malformed`); a malformed frame is
answered with a protocol-level `NACK` and a failed `GET_DATA` command with
a protocol-level `ERROR` carrying the reason code — never a crash. -/
theorem decode_total_no_fatal (identity : List Nat) (app : Except Nat (List Nat))
    (vk : Nat → Bool) (buf : List Nat) :
    ((∃ k p rest, decode vk buf = (.msg k p, rest)) ∨
     (∃ rest, decode vk buf = (.needMoreData, rest)) ∨
     (∃ rest, decode vk buf = (.malformed, rest))) ∧
    (∀ rest, decode cmdKindValid buf = (.malformed, rest) →
      engineStep identity app buf = (some nackMessage, rest)) ∧
    (∀ p rest r, decode cmdKindValid buf = (.msg (cmdVal .GET_DATA) p, rest) →
      engineStep identity (.error r) buf = (some ⟨.ERROR, [r]⟩, rest)) := by
  refine ⟨?_, ?_, ?_⟩
  · rcases h : decode vk buf with ⟨res, rest⟩
    cases res with
    | msg k p => exact Or.inl ⟨k, p, rest, rfl⟩
    | needMoreData => exact Or.inr (Or.inl ⟨rest, rfl⟩)
    | malformed => exact Or.inr (Or.inr ⟨rest, rfl⟩)
  · intro rest h
    unfold engineStep
    rw [h]
  · intro p rest r h
    unfold engineStep
    rw [h]
    rfl

/-- C7: when the buffer is aligned at a start byte and LENGTH announces
more payload bytes than remain, decode returns `needMoreData` (neither
`malformed` nor a message) and retains the whole buffered prefix. -/
theorem insufficient_length_waits (vk : Nat → Bool) (kind len : Nat)
    (tail : List Nat) (h : tail.length < len) :
    decode vk (START_BYTE :: kind :: len :: tail) =
      (.needMoreData, START_BYTE :: kind :: len :: tail) :=
  decode_start_short vk kind len tail (by omega)

/-- Witness for C7 at a concrete input: LENGTH 3 with a 1-byte tail. -/
theorem insufficient_length_waits_witness :
    ([9] : List Nat).length < 3 ∧
    decode msgKindValid (START_BYTE :: 0 :: 3 :: [9]) =
      (.needMoreData, START_BYTE :: 0 :: 3 :: [9]) :=
  ⟨by decide, insufficient_length_waits msgKindValid 0 3 [9] (by decide)⟩

/-- C4: a structurally well-formed frame (correct LENGTH, checksum and end
sentinel) whose KIND byte is outside `CMD_TYPES`'s legal wire values
decodes to `malformed`, and the engine's single reply to it is the `NACK`
message. -/
theorem unknown_command_rejected (identity : List Nat)
    (app : Except Nat (List Nat)) (k n : Nat) (wire : List Nat)
    (hn : wire.length = n) (hk : cmdKindValid k = false) :
    decode cmdKindValid
        (START_BYTE :: k :: n :: (wire ++ [checksum k n wire, END_BYTE])) =
      (.malformed, k :: n :: (wire ++ [checksum k n wire, END_BYTE])) ∧
    engineStep identity app
        (START_BYTE :: k :: n :: (wire ++ [checksum k n wire, END_BYTE])) =
      (some nackMessage, k :: n :: (wire ++ [checksum k n wire, END_BYTE])) := by
  have hd : decode cmdKindValid
      (START_BYTE :: k :: n :: (wire ++ [checksum k n wire, END_BYTE])) =
      (.malformed, k :: n :: (wire ++ [checksum k n wire, END_BYTE])) := by
    rw [decode_start]
    rw [if_neg (by simp [hn])]
    rw [List.drop_left' hn, List.take_left' hn]
    simp only []
    rw [if_neg (by simp [hk])]
  refine ⟨hd, ?_⟩
  unfold engineStep
  rw [hd]

/-- Witness for C4 at a concrete input: KIND 9 (outside `{0, 1}`) on an
otherwise well-formed empty-payload frame. -/
theorem unknown_command_rejected_witness :
    ([] : List Nat).length = 0 ∧ cmdKindValid 9 = false ∧
    (decode cmdKindValid
        (START_BYTE :: 9 :: 0 :: ([] ++ [checksum 9 0 [], END_BYTE])) =
      (.malformed, 9 :: 0 :: ([] ++ [checksum 9 0 [], END_BYTE])) ∧
    engineStep [] (.ok [])
        (START_BYTE :: 9 :: 0 :: ([] ++ [checksum 9 0 [], END_BYTE])) =
      (some nackMessage, 9 :: 0 :: ([] ++ [checksum 9 0 [], END_BYTE]))) :=
  ⟨rfl, rfl, unknown_command_rejected [] (.ok []) 9 0 [] rfl rfl⟩

/-- C5: every successfully decoded command produces exactly one response
(the engine's reply is `some` single message): `GET_IDENTITY` always
yields `IDENTITY` with the configured identity string; `GET_DATA` yields
`DATA` on application success and `ERROR` with the reason code on
application failure. -/
theorem dispatch_exactly_one (identity : List Nat)
    (app : Except Nat (List Nat)) (c : Command) (hc : validCmd c) :
    engineStep identity app (encodeCmd c) =
      (some (dispatch identity app c.kind), []) ∧
    dispatch identity app .GET_IDENTITY = ⟨.IDENTITY, identity⟩ ∧
    (∀ d, app = .ok d → dispatch identity app .GET_DATA = ⟨.DATA, d⟩) ∧
    ∀ r, app = .error r → dispatch identity app .GET_DATA = ⟨.ERROR, [r]⟩ := by
  have hd : decode cmdKindValid (encodeCmd c) =
      (.msg (cmdVal c.kind) c.args, []) := by
    unfold encodeCmd
    have h := decode_encodeFrame cmdKindValid (cmdVal c.kind) c.args []
      (cmdKindValid_cmdVal c.kind)
    rwa [List.append_nil] at h
  refine ⟨?_, rfl, ?_, ?_⟩
  · unfold engineStep
    rw [hd]
    simp only [cmdOfVal_cmdVal]
  · intro d h
    subst h
    rfl
  · intro r h
    subst h
    rfl

/-- Witness for C5 at a concrete input: a `GET_DATA` command with a
successful application collaborator. -/
theorem dispatch_exactly_one_witness :
    validCmd ⟨.GET_DATA, []⟩ ∧
    (engineStep [65] (.ok [1, 2]) (encodeCmd ⟨.GET_DATA, []⟩) =
      (some (dispatch [65] (.ok [1, 2]) (Command.mk .GET_DATA []).kind), []) ∧
    dispatch [65] (.ok [1, 2]) .GET_IDENTITY = ⟨.IDENTITY, [65]⟩ ∧
    (∀ d, (Except.ok [1, 2] : Except Nat (List Nat)) = .ok d →
      dispatch [65] (.ok [1, 2]) .GET_DATA = ⟨.DATA, d⟩) ∧
    ∀ r, (Except.ok [1, 2] : Except Nat (List Nat)) = .error r →
      dispatch [65] (.ok [1, 2]) .GET_DATA = ⟨.ERROR, [r]⟩) :=
  ⟨by decide, dispatch_exactly_one [65] (.ok [1, 2]) ⟨.GET_DATA, []⟩ (by decide)⟩

/-- C1: round-trip / bijectivity — decoding the byte sequence produced by
encoding a valid Message yields exactly that Message (with nothing left
in the buffer), and `encode` is injective on valid Messages, so each
Message corresponds to exactly one frame and that frame back to exactly
that Message. -/
theorem decode_encode_roundTrip (m : Message) (hm : validMsg m) :
    decode msgKindValid (encode m) = (.msg (msgVal m.kind) m.payload, []) ∧
    decodeMsg (encode m) = some m ∧
    ∀ m' : Message, validMsg m' → encode m = encode m' → m = m' := by
  have h1 : decode msgKindValid (encode m) =
      (.msg (msgVal m.kind) m.payload, []) := by
    unfold encode
    have h := decode_encodeFrame msgKindValid (msgVal m.kind) m.payload []
      (msgKindValid_msgVal m.kind)
    rwa [List.append_nil] at h
  refine ⟨h1, ?_, ?_⟩
  · unfold decodeMsg
    rw [h1]
    simp only [msgOfVal_msgVal, Option.map_some]
    rfl
  · intro m' hm' he
    have h2 : decode msgKindValid (encode m') =
        (.msg (msgVal m'.kind) m'.payload, []) := by
      unfold encode
      have h := decode_encodeFrame msgKindValid (msgVal m'.kind) m'.payload []
        (msgKindValid_msgVal m'.kind)
      rwa [List.append_nil] at h
    rw [he] at h1
    have h3 := h1.symm.trans h2
    simp only [Prod.mk.injEq, DecodeResult.msg.injEq] at h3
    obtain ⟨⟨hkv, hpv⟩, -⟩ := h3
    cases m with
    | mk k p =>
      cases m' with
      | mk k' p' =>
        simp only at hkv hpv
        rw [msgVal_injective k k' hkv, hpv]

/-- Witness for C1 at a concrete input: a `DATA` message whose payload
contains both sentinel bytes (so escaping is exercised). -/
theorem decode_encode_roundTrip_witness :
    validMsg ⟨.DATA, [126, 7, 125]⟩ ∧
    (decode msgKindValid (encode ⟨.DATA, [126, 7, 125]⟩) =
      (.msg (msgVal .DATA) [126, 7, 125], []) ∧
    decodeMsg (encode ⟨.DATA, [126, 7, 125]⟩) = some ⟨.DATA, [126, 7, 125]⟩ ∧
    ∀ m' : Message, validMsg m' →
      encode ⟨.DATA, [126, 7, 125]⟩ = encode m' → Message.mk .DATA [126, 7, 125] = m') :=
  ⟨by decide, decode_encode_roundTrip ⟨.DATA, [126, 7, 125]⟩ (by decide)⟩

/-- C6: feeding a valid frame's bytes to the decoder one byte at a time,
with a decode call after each byte, yields `needMoreData` for every call
except the one that consumes the final byte, which yields exactly the
original Message (so no delivery order duplicates or loses a message). -/
theorem partial_input_needMoreData (m : Message) (hm : validMsg m) :
    (∀ n, n < (encode m).length →
      (decode msgKindValid ((encode m).take n)).1 = .needMoreData) ∧
    decode msgKindValid (encode m) = (.msg (msgVal m.kind) m.payload, []) := by
  have hfr : encode m = START_BYTE :: msgVal m.kind ::
      (escape m.payload).length :: (escape m.payload ++
        [checksum (msgVal m.kind) (escape m.payload).length (escape m.payload),
         END_BYTE]) := rfl
  constructor
  · intro n hn
    have hlen : (encode m).length = (escape m.payload).length + 5 := by
      unfold encode
      rw [encodeFrame_length]
    match n with
    | 0 =>
      rw [List.take_zero]
      rfl
    | 1 =>
      rw [hfr, List.take_succ_cons, List.take_zero]
      rfl
    | 2 =>
      rw [hfr, List.take_succ_cons, List.take_succ_cons, List.take_zero]
      unfold decode
      rw [List.dropWhile_cons_of_neg (by simp)]
    | (j + 3) =>
      rw [hfr, List.take_succ_cons, List.take_succ_cons, List.take_succ_cons]
      rw [decode_start_short]
      have hj : j < (escape m.payload).length + 2 := by
        rw [hfr] at hn
        simp only [List.length_cons, List.length_append, List.length_cons,
          List.length_nil] at hn
        omega
      calc ((escape m.payload ++
              [checksum (msgVal m.kind) (escape m.payload).length (escape m.payload),
               END_BYTE]).take j).length
          ≤ j := List.length_take_le j _
        _ < (escape m.payload).length + 2 := hj
  · have h := decode_encodeFrame msgKindValid (msgVal m.kind) m.payload []
      (msgKindValid_msgVal m.kind)
    unfold encode
    rwa [List.append_nil] at h

/-- Witness for C6 at a concrete input: an `ACK` message with payload
`[7]` (a 6-byte frame). -/
theorem partial_input_needMoreData_witness :
    validMsg ⟨.ACK, [7]⟩ ∧
    ((∀ n, n < (encode ⟨.ACK, [7]⟩).length →
      (decode msgKindValid ((encode ⟨.ACK, [7]⟩).take n)).1 = .needMoreData) ∧
    decode msgKindValid (encode ⟨.ACK, [7]⟩) = (.msg (msgVal .ACK) [7], [])) :=
  ⟨by decide, partial_input_needMoreData ⟨.ACK, [7]⟩ (by decide)⟩

/-- C2: resynchronization — a valid frame, then any garbage bytes none of
which equals `START_BYTE`, then a second valid frame decode to exactly
the two original messages in order, with the garbage discarded. -/
theorem resync_two_frames (m1 m2 : Message) (g : List Nat)
    (hm1 : validMsg m1) (hm2 : validMsg m2)
    (hg : ∀ b ∈ g, b ≠ START_BYTE) :
    decodeAll msgKindValid (encode m1 ++ g ++ encode m2) =
      [(msgVal m1.kind, m1.payload), (msgVal m2.kind, m2.payload)] := by
  have hlen1 : 0 < (encode m1).length := by
    unfold encode
    rw [encodeFrame_length]
    omega
  have hlen2 : 0 < (encode m2).length := by
    unfold encode
    rw [encodeFrame_length]
    omega
  have e1 : decode msgKindValid (encode m1 ++ (g ++ encode m2)) =
      (.msg (msgVal m1.kind) m1.payload, g ++ encode m2) := by
    conv_lhs => rw [show encode m1 = encodeFrame (msgVal m1.kind) m1.payload from rfl]
    exact decode_encodeFrame _ _ _ _ (msgKindValid_msgVal m1.kind)
  have e2 : decode msgKindValid (g ++ encode m2) =
      (.msg (msgVal m2.kind) m2.payload, []) := by
    rw [decode_drop_garbage _ _ _ hg]
    have h := decode_encodeFrame msgKindValid (msgVal m2.kind) m2.payload []
      (msgKindValid_msgVal m2.kind)
    unfold encode
    rwa [List.append_nil] at h
  rw [List.append_assoc]
  rw [decodeAll_msg _ _ _ _ _ e1 (by simp only [List.length_append]; omega)]
  rw [decodeAll_msg _ _ _ _ _ e2 (by simp only [List.length_append, List.length_nil]; omega)]
  rw [decodeAll_nil]

/-- Witness for C2 at a concrete input: `ACK [1]`, garbage `[9, 9, 9]`,
then `DATA [126]`. -/
theorem resync_two_frames_witness :
    validMsg ⟨.ACK, [1]⟩ ∧ validMsg ⟨.DATA, [126]⟩ ∧
    (∀ b ∈ ([9, 9, 9] : List Nat), b ≠ START_BYTE) ∧
    decodeAll msgKindValid (encode ⟨.ACK, [1]⟩ ++ [9, 9, 9] ++ encode ⟨.DATA, [126]⟩) =
      [(msgVal .ACK, [1]), (msgVal .DATA, [126])] :=
  ⟨by decide, by decide, by decide,
    resync_two_frames ⟨.ACK, [1]⟩ ⟨.DATA, [126]⟩ [9, 9, 9]
      (by decide) (by decide) (by decide)⟩

/-- C3: checksum sensitivity — flipping any single bit of any byte in a
valid frame's (escaped) payload region or in its checksum byte makes
decode return `malformed`, and in particular never a (possibly different)
message: no silently-wrong decode. -/
theorem checksum_sensitivity (m : Message) (hm : validMsg m) (i kb : Nat)
    (h3 : 3 ≤ i) (hi : i ≤ 3 + (escape m.payload).length) (hkb : kb < 8) :
    (decode msgKindValid
        ((encode m).set i ((encode m).getD i 0 ^^^ 2 ^ kb))).1 = .malformed ∧
    ∀ k p, (decode msgKindValid
        ((encode m).set i ((encode m).getD i 0 ^^^ 2 ^ kb))).1 ≠ .msg k p := by
  obtain ⟨j, rfl⟩ : ∃ j, i = j + 3 := ⟨i - 3, by omega⟩
  have hpow : 0 < 2 ^ kb := Nat.pos_pow_of_pos kb (by omega)
  have hfr : encode m = START_BYTE :: msgVal m.kind ::
      (escape m.payload).length :: (escape m.payload ++
        [checksum (msgVal m.kind) (escape m.payload).length (escape m.payload),
         END_BYTE]) := rfl
  have hmain : (decode msgKindValid
      ((encode m).set (j + 3) ((encode m).getD (j + 3) 0 ^^^ 2 ^ kb))).1
      = .malformed := by
    rw [hfr, set_cons3, getD_cons3]
    rcases (by omega : j < (escape m.payload).length ∨
        j = (escape m.payload).length) with hj | hj
    · -- a bit of a payload byte on the wire is flipped
      rw [List.getD_append _ _ _ j hj]
      rw [List.set_append_left _ _ hj]
      have hsum : checksum (msgVal m.kind) (escape m.payload).length
          ((escape m.payload).set j ((escape m.payload).getD j 0 ^^^ 2 ^ kb)) =
          checksum (msgVal m.kind) (escape m.payload).length (escape m.payload)
            ^^^ 2 ^ kb := by
        unfold checksum
        rw [xorFold_set _ _ _ hj, ← Nat.xor_assoc]
      have hne : checksum (msgVal m.kind) (escape m.payload).length (escape m.payload) ≠
          checksum (msgVal m.kind) (escape m.payload).length
            ((escape m.payload).set j ((escape m.payload).getD j 0 ^^^ 2 ^ kb)) := by
        rw [hsum]
        exact self_ne_xor _ _ hpow
      rw [decode_bad_checksum msgKindValid _ _ _ _ (by simp) hne]
    · -- a bit of the checksum byte is flipped
      subst hj
      rw [List.getD_append_right _ _ _ _ (le_refl _), Nat.sub_self]
      rw [List.set_append_right _ _ (le_refl _), Nat.sub_self]
      simp only [List.getD_cons_zero, List.set_cons_zero]
      rw [decode_bad_checksum msgKindValid _ _ _ _ rfl
        (fun hc => (self_ne_xor _ _ hpow) hc.symm)]
  exact ⟨hmain, fun k p => by rw [hmain]; simp⟩

/-- Witness for C3 at a concrete input: flip bit 0 of the payload byte of
`ACK [7]` (frame position 3). -/
theorem checksum_sensitivity_witness :
    validMsg ⟨.ACK, [7]⟩ ∧ 3 ≤ 3 ∧ 3 ≤ 3 + (escape [7]).length ∧ 0 < 8 ∧
    ((decode msgKindValid
        ((encode ⟨.ACK, [7]⟩).set 3 ((encode ⟨.ACK, [7]⟩).getD 3 0 ^^^ 2 ^ 0))).1
        = .malformed ∧
    ∀ k p, (decode msgKindValid
        ((encode ⟨.ACK, [7]⟩).set 3 ((encode ⟨.ACK, [7]⟩).getD 3 0 ^^^ 2 ^ 0))).1
        ≠ .msg k p) :=
  ⟨by decide, by decide, by decide, by decide,
    checksum_sensitivity ⟨.ACK, [7]⟩ (by decide) 3 0 (by decide) (by decide) (by decide)⟩

end Comms
